import Mathlib

/-!
Shallow embedding of the financial core of the `novart` portal application
(`src/portal/models.py`, `src/portal/signals.py`, `src/portal/finance_utils.py`).

Monetary amounts are Python `Decimal` values; they are embedded as exact
rationals (`ℚ`), which is faithful because every arithmetic operation the
embedded code performs (addition, subtraction, multiplication, division by
100 of values whose sizes fit well inside Decimal's 28-digit context) is
exact in `Decimal`.  Calendar dates are embedded as year/month/day triples
with the bounds every `datetime.date` satisfies.  Python's floor division
`//` and modulo `%` coincide with Lean's `Int.ediv` / `Int.emod` (written
`/` and `%` below) whenever the divisor is positive, which is the only way
the embedded code uses them (divisor 12).
-/

namespace Novart

/-! ## Calendar dates (`datetime.date`) -/

/-- A calendar date.  Every `datetime.date` has `1 ≤ month ≤ 12` and
`1 ≤ day ≤ 31`; the embedded code never constructs anything outside those
bounds (it only copies days, sets day 1, or clamps a day to at most 28). -/
structure Date where
  year : Int
  month : Int
  day : Int
  month_pos : 1 ≤ month
  month_le : month ≤ 12
  day_pos : 1 ≤ day
  day_le : day ≤ 31

instance : DecidableEq Date := fun a b =>
  if h : a.year = b.year ∧ a.month = b.month ∧ a.day = b.day then
    isTrue (by cases a; cases b; simp_all)
  else
    isFalse (fun he => h (by cases he; exact ⟨rfl, rfl, rfl⟩))

/-- Strict ordering of dates (Python `date.__lt__`): lexicographic on
(year, month, day). -/
def Date.Lt (a b : Date) : Prop :=
  a.year < b.year ∨ (a.year = b.year ∧ (a.month < b.month ∨ (a.month = b.month ∧ a.day < b.day)))

/-- Non-strict ordering of dates (Python `date.__le__`). -/
def Date.Le (a b : Date) : Prop :=
  a.year < b.year ∨ (a.year = b.year ∧ (a.month < b.month ∨ (a.month = b.month ∧ a.day ≤ b.day)))

instance (a b : Date) : Decidable (Date.Lt a b) := by unfold Date.Lt; infer_instance

instance (a b : Date) : Decidable (Date.Le a b) := by unfold Date.Le; infer_instance

/-- Month counter: the number of the month on a single time axis.  Used to
measure how many monthly periods separate two dates. -/
def Date.monthIdx (d : Date) : Int := 12 * d.year + d.month

/-! ## Invoice valuation and status (`portal/models.py`, class `Invoice`) -/

/-- Embeds `Invoice.Status` choices. -/
inductive InvoiceStatus
  | draft
  | sent
  | paid
  | overdue
deriving DecidableEq

/-- Embeds `InvoiceLine`: `quantity` and `unit_price` are `DecimalField`s with two
decimal places. -/
structure InvoiceLine where
  quantity : ℚ
  unit_price : ℚ
deriving DecidableEq

/-- Embeds `InvoiceLine.line_total = (quantity or 0) * (unit_price or 0)` (the fields
are non-null, so the `or 0` guards are identities). -/
def InvoiceLine.line_total (l : InvoiceLine) : ℚ := l.quantity * l.unit_price

/-- The fields of an `Invoice` that its valuation and status machine read.
`payments` and `advance_allocations` hold the amounts of the linked
`Payment` and `ClientAdvanceAllocation` rows. -/
structure Invoice where
  amount : ℚ
  tax_percent : ℚ
  discount_percent : ℚ
  status : InvoiceStatus
  due_date : Date
  lines : List InvoiceLine
  payments : List ℚ
  advance_allocations : List ℚ

/-- The sum of the invoice's line totals
(`sum((line.line_total for line in self.lines.all()), Decimal('0'))`). -/
def Invoice.linesTotal (inv : Invoice) : ℚ :=
  (inv.lines.map InvoiceLine.line_total).sum

/-- Embeds `Invoice.subtotal`: `lines_total or self.amount` — Python's `or` falls
back to the flat `amount` exactly when `lines_total` is the (falsy) zero
`Decimal`, which happens both when there are no lines and when the lines
sum to zero. -/
def Invoice.subtotal (inv : Invoice) : ℚ :=
  if inv.linesTotal = 0 then inv.amount else inv.linesTotal

/-- Embeds `Invoice.discount_amount`: `base * discount_percent / 100`, forced up to
at least `0` and capped at `base`. -/
def Invoice.discount_amount (inv : Invoice) : ℚ :=
  min (max (inv.subtotal * inv.discount_percent / 100) 0) inv.subtotal

/-- Embeds `Invoice.taxable_amount = max(subtotal - discount_amount, 0)`. -/
def Invoice.taxable_amount (inv : Invoice) : ℚ :=
  max (inv.subtotal - inv.discount_amount) 0

/-- Embeds `Invoice.total_with_tax = taxable_amount + taxable_amount * tax_percent / 100`. -/
def Invoice.total_with_tax (inv : Invoice) : ℚ :=
  inv.taxable_amount + inv.taxable_amount * inv.tax_percent / 100

/-- Embeds `Invoice.amount_received`: sum of the linked payments' amounts. -/
def Invoice.amount_received (inv : Invoice) : ℚ := inv.payments.sum

/-- Embeds `Invoice.advance_applied`: sum of the linked advance allocations' amounts. -/
def Invoice.advance_applied (inv : Invoice) : ℚ := inv.advance_allocations.sum

/-- Embeds `Invoice.amount_settled = amount_received + advance_applied`. -/
def Invoice.amount_settled (inv : Invoice) : ℚ :=
  inv.amount_received + inv.advance_applied

/-- Embeds `Invoice.outstanding = max(total_with_tax - amount_settled, 0)`. -/
def Invoice.outstanding (inv : Invoice) : ℚ :=
  max (inv.total_with_tax - inv.amount_settled) 0

/-- Embeds `Invoice.refresh_status(save, today)`: the pure status computation.  The
`save` flag only controls persistence of the returned value and is not
modelled. -/
def Invoice.refresh_status (inv : Invoice) (today : Date) : InvoiceStatus :=
  if inv.outstanding ≤ 0 then .paid
  else if Date.Lt inv.due_date today then .overdue
  else if inv.status = .draft then .sent
  else inv.status

/-! ## Bill status (`portal/models.py`, class `Bill`) -/

/-- Embeds `Bill.Status` choices; `partiallyPaid` embeds the source's `'partial'`. -/
inductive BillStatus
  | unpaid
  | partiallyPaid
  | paid
  | overdue
deriving DecidableEq

/-- The fields of a `Bill` that its status machine reads; `due_date` is
nullable (`null=True`), `payments` holds the linked `BillPayment` amounts. -/
structure Bill where
  amount : ℚ
  due_date : Option Date
  status : BillStatus
  payments : List ℚ

/-- Embeds `Bill.amount_paid`: sum of the linked bill payments' amounts. -/
def Bill.amount_paid (b : Bill) : ℚ := b.payments.sum

/-- Embeds `Bill.outstanding = max((amount or 0) - amount_paid, 0)` (the field is
non-null, so `amount or 0 = amount`). -/
def Bill.outstanding (b : Bill) : ℚ := max (b.amount - b.amount_paid) 0

/-- Embeds `Bill.refresh_status(save, today)`: the pure status computation.  Note the
order: `partial` is tested before `overdue`, and a null `due_date` is falsy
so the overdue test is skipped. -/
def Bill.refresh_status (b : Bill) (today : Date) : BillStatus :=
  if b.outstanding ≤ 0 then .paid
  else if b.outstanding < b.amount then .partiallyPaid
  else
    match b.due_date with
    | some d => if Date.Lt d today then .overdue else .unpaid
    | none => .unpaid

/-! ## The cashbook ledger (`portal/models.py`, class `Transaction`) -/

/-- Embeds `Transaction.Category` choices; `blank` embeds the default `''`. -/
inductive TxnCategory
  | client_payment
  | client_advance
  | vendor_payment
  | salary
  | reimbursement
  | transfer
  | misc
  | project_expense
  | other_income
  | other_expense
  | blank
deriving DecidableEq

/-- What the payment-sync signal reads from a `Project`: its `code` (a
`CharField`, falsy when empty) and its client foreign key. -/
structure ProjectRef where
  code : String
  client_id : Option Nat
deriving DecidableEq

/-- A `Transaction` (cashbook) row.  Foreign keys are embedded as optional
ids; the five nullable origin keys are all present.  `subcategory` and the
audit timestamps are never read or written by the embedded code and are
omitted. -/
structure Transaction where
  date : Date
  description : String
  category : TxnCategory
  debit : ℚ
  credit : ℚ
  account_id : Option Nat
  payment_id : Option Nat
  bill_payment_id : Option Nat
  client_advance_id : Option Nat
  expense_claim_payment_id : Option Nat
  recurring_rule_id : Option Nat
  related_project : Option ProjectRef
  related_client_id : Option Nat
  related_vendor_id : Option Nat
  related_person_id : Option Nat
  recorded_by_id : Option Nat
  remarks : String
deriving DecidableEq

/-! ## Payment → cashbook sync (`portal/signals.py`,
`sync_cashbook_entry_on_payment`) -/

/-- What the payment-sync signal reads from the payment's `Invoice`:
its display number, its optional project, and the client id reachable
through its lead (`None` when the invoice has no lead or the lead has no
client — both cases leave `client` unset in the handler). -/
structure InvoiceRef where
  display_invoice_number : String
  project : Option ProjectRef
  lead_client_id : Option Nat

/-- A `Payment` row as read by the sync handler.  `invoice` is the linked
invoice (`None` embeds a missing `invoice_id`). -/
structure Payment where
  id : Nat
  invoice : Option InvoiceRef
  payment_date : Date
  amount : ℚ
  account_id : Option Nat
  method : String
  reference : String
  received_by_id : Option Nat
  recorded_by_id : Option Nat

/-- The `client` resolved by the handler: the project's client when the
project has one, else the lead's client. -/
def paymentClient (inv : InvoiceRef) : Option Nat :=
  match inv.project with
  | some pr =>
    match pr.client_id with
    | some c => some c
    | none => inv.lead_client_id
  | none => inv.lead_client_id

/-- The handler's `description`: it names the project code only when the
project exists and its code is non-empty (truthy). -/
def paymentDescription (inv : InvoiceRef) : String :=
  match inv.project with
  | some pr =>
    if pr.code ≠ "" then
      "Payment received · " ++ pr.code ++ " · Invoice " ++ inv.display_invoice_number
    else
      "Payment received · Invoice " ++ inv.display_invoice_number
  | none => "Payment received · Invoice " ++ inv.display_invoice_number

/-- The handler's `remarks`: `" | ".join` of the method and reference parts,
each included only when non-empty. -/
def paymentRemarks (p : Payment) : String :=
  String.intercalate " | "
    ((if p.method ≠ "" then ["Method: " ++ p.method] else []) ++
     (if p.reference ≠ "" then ["Ref: " ++ p.reference] else []))

/-- The `defaults=` dictionary of the handler's `update_or_create`, applied
to an existing `Transaction` row: every listed field is overwritten, the
rest (including the origin key `payment`) keep their values. -/
def applyPaymentDefaults (inv : InvoiceRef) (p : Payment) (t : Transaction) : Transaction :=
  { t with
    date := p.payment_date
    description := (paymentDescription inv).take 255
    category := .client_payment
    debit := 0
    credit := p.amount
    account_id := p.account_id
    related_project := inv.project
    related_client_id := paymentClient inv
    related_person_id := p.received_by_id
    recorded_by_id := p.recorded_by_id
    remarks := paymentRemarks p }

/-- The row `update_or_create` inserts when no `Transaction` with this
payment origin exists: the lookup key `payment=instance`, the defaults, and
the model defaults for every other field. -/
def newPaymentTxn (inv : InvoiceRef) (p : Payment) : Transaction :=
  { date := p.payment_date
    description := (paymentDescription inv).take 255
    category := .client_payment
    debit := 0
    credit := p.amount
    account_id := p.account_id
    payment_id := some p.id
    bill_payment_id := none
    client_advance_id := none
    expense_claim_payment_id := none
    recurring_rule_id := none
    related_project := inv.project
    related_client_id := paymentClient inv
    related_vendor_id := none
    related_person_id := p.received_by_id
    recorded_by_id := p.recorded_by_id
    remarks := paymentRemarks p }

/-- Embeds `Transaction.objects.update_or_create(payment=instance, defaults=...)`
over a ledger embedded as a list of rows.  The origin key `payment` is a
`OneToOneField`, so at most one row can match; updating every matching row
is then the same as updating the single match. -/
def upsertPaymentTxn (inv : InvoiceRef) (p : Payment) (ledger : List Transaction) :
    List Transaction :=
  if ledger.any (fun t => decide (t.payment_id = some p.id)) then
    ledger.map (fun t => if t.payment_id = some p.id then applyPaymentDefaults inv p t else t)
  else
    ledger ++ [newPaymentTxn inv p]

/-- Embeds `sync_cashbook_entry_on_payment`: skips silently when the payment has no
invoice, otherwise upserts the payment's cashbook row.  (The `raw` fixture
guard is not modelled.) -/
def sync_cashbook_entry_on_payment (p : Payment) (ledger : List Transaction) :
    List Transaction :=
  match p.invoice with
  | none => ledger
  | some inv => upsertPaymentTxn inv p ledger

/-- The number of ledger rows whose payment origin is the payment `pid`. -/
def countPaymentTxns (ledger : List Transaction) (pid : Nat) : Nat :=
  ledger.countP (fun t => decide (t.payment_id = some pid))

/-- The pointwise update the `update_or_create` branch performs. -/
def updatePaymentRow (inv : InvoiceRef) (p : Payment) (t : Transaction) : Transaction :=
  if t.payment_id = some p.id then applyPaymentDefaults inv p t else t

/-! ## Recurring-rule expansion (`portal/finance_utils.py`) -/

/-- Embeds `RecurringTransactionRule.Direction` choices. -/
inductive Direction
  | debit
  | credit
deriving DecidableEq

/-- A `RecurringTransactionRule` row. -/
structure RecurringTransactionRule where
  id : Nat
  name : String
  is_active : Bool
  direction : Direction
  category : TxnCategory
  description : String
  amount : ℚ
  account_id : Option Nat
  related_project : Option ProjectRef
  related_vendor_id : Option Nat
  day_of_month : Nat
  next_run_date : Date

/-- Embeds `add_month(base, months)` from `finance_utils.py`.  Python's `//` and `%`
agree with `Int.ediv`/`Int.emod` here because the divisor 12 is positive. -/
def add_month (base : Date) (months : Int) : Date :=
  let m0 := base.month - 1 + months
  { year := base.year + m0 / 12
    month := m0 % 12 + 1
    day := min base.day 28
    month_pos := by have := Int.emod_nonneg m0 (b := 12) (by norm_num); omega
    month_le := by have := Int.emod_lt_of_pos m0 (b := 12) (by norm_num); omega
    day_pos := by have := base.day_pos; omega
    day_le := by have := base.day_le; omega }

/-- Embeds `run_date.replace(day=1)`. -/
def Date.firstOfMonth (d : Date) : Date :=
  { d with day := 1, day_pos := by norm_num, day_le := by norm_num }

/-- Embeds `min(rule.day_of_month or 1, 28)` as an `Int` day value. -/
def clampedDay (day_of_month : Nat) : Int :=
  min (if day_of_month = 0 then 1 else (day_of_month : Int)) 28

/-- Embeds `.replace(day=min(rule.day_of_month or 1, 28))`. -/
def Date.withClampedDay (d : Date) (day_of_month : Nat) : Date :=
  { d with
    day := clampedDay day_of_month
    day_pos := by
      unfold clampedDay
      split <;> [omega; skip]
      have : (1 : Int) ≤ (day_of_month : Int) := by omega
      omega
    day_le := by unfold clampedDay; omega }

/-- The expander's cursor step:
`add_month(run_date.replace(day=1), 1).replace(day=min(rule.day_of_month or 1, 28))`. -/
def nextRunCursor (day_of_month : Nat) (d : Date) : Date :=
  (add_month d.firstOfMonth 1).withClampedDay day_of_month

/-- The row `get_or_create(recurring_rule=rule, date=run_date, defaults=...)`
inserts for one period: the lookup keys, the defaults, and the model
defaults for every other field. -/
def ruleTxnFor (rule : RecurringTransactionRule) (actor : Option Nat) (runDate : Date) :
    Transaction :=
  { date := runDate
    description := (if rule.description ≠ "" then rule.description else rule.name).take 255
    category := rule.category
    debit := if rule.direction = .debit then rule.amount else 0
    credit := if rule.direction = .credit then rule.amount else 0
    account_id := rule.account_id
    payment_id := none
    bill_payment_id := none
    client_advance_id := none
    expense_claim_payment_id := none
    recurring_rule_id := some rule.id
    related_project := rule.related_project
    related_client_id := none
    related_vendor_id := rule.related_vendor_id
    related_person_id := none
    recorded_by_id := actor
    remarks := ("Recurring: " ++ rule.name).take 255 }

/-- Does the ledger already hold a row keyed by this rule and date?  This is
the existence half of the loop's `get_or_create`. -/
def hasRuleTxn (ledger : List Transaction) (rid : Nat) (d : Date) : Bool :=
  ledger.any (fun t => decide (t.recurring_rule_id = some rid ∧ t.date = d))

/-- The number of ledger rows keyed by rule `rid` and date `d`. -/
def countRuleTxns (ledger : List Transaction) (rid : Nat) (d : Date) : Nat :=
  ledger.countP (fun t => decide (t.recurring_rule_id = some rid ∧ t.date = d))

/-- One rule's `while run_date and run_date <= today` loop.  The source loop
has no fuel; here `steps` is an upper bound on the number of iterations,
consumed one per period.  `runRule` below supplies a bound that is exact
(each iteration advances `monthIdx` by exactly one, see
`expandSteps_cursor_past_today`), so this is the same function as the
unbounded loop. -/
def expandSteps (rule : RecurringTransactionRule) (actor : Option Nat) (today : Date) :
    Nat → Date → List Transaction → Nat → List Transaction × Date × Nat
  | 0, runDate, ledger, count => (ledger, runDate, count)
  | steps + 1, runDate, ledger, count =>
    if Date.Le runDate today then
      let ledger' :=
        if hasRuleTxn ledger rule.id runDate then ledger
        else ledger ++ [ruleTxnFor rule actor runDate]
      let count' := if hasRuleTxn ledger rule.id runDate then count else count + 1
      expandSteps rule actor today steps (nextRunCursor rule.day_of_month runDate) ledger' count'
    else (ledger, runDate, count)

/-- The exact iteration bound for the loop from `runDate` up to `today`. -/
def stepsFor (today runDate : Date) : Nat := (today.monthIdx + 1 - runDate.monthIdx).toNat

/-- The body of the `for rule in rules` loop of
`generate_recurring_transactions`, for one rule: run the period loop from
the rule's cursor, then persist the advanced cursor.  Returns the new
ledger, the updated rule and the rule's contribution to `created_count`. -/
def runRule (rule : RecurringTransactionRule) (actor : Option Nat) (today : Date)
    (ledger : List Transaction) : List Transaction × Date × Nat :=
  expandSteps rule actor today (stepsFor today rule.next_run_date) rule.next_run_date ledger 0

/-- Embeds `generate_recurring_transactions(today=..., actor=...)` restricted to a
single rule.  The queryset filter `is_active=True, next_run_date__lte=today`
becomes the guard; a rule the filter excludes contributes nothing.  The
source persists `next_run_date` only when it changed; the resulting state is
the same either way. -/
def generate_recurring_transactions (rule : RecurringTransactionRule) (actor : Option Nat)
    (today : Date) (ledger : List Transaction) :
    List Transaction × RecurringTransactionRule × Nat :=
  if rule.is_active = true ∧ Date.Le rule.next_run_date today then
    let r := runRule rule actor today ledger
    (r.1, { rule with next_run_date := r.2.1 }, r.2.2)
  else (ledger, rule, 0)

/-- The dates of the monthly periods the loop visits: the cursor values from
`runDate` while they do not exceed `today`. -/
def elapsedDates (dom : Nat) (today : Date) : Nat → Date → List Date
  | 0, _ => []
  | steps + 1, d =>
    if Date.Le d today then d :: elapsedDates dom today steps (nextRunCursor dom d)
    else []

/-! ## Decimal places -/

/-- Predicate: `x` is representable with at most `n` decimal places: scaling by `10^n`
gives an integer.  A `DecimalField` with `decimal_places=2` stores values
with `hasDp 2`. -/
def hasDp (n : Nat) (x : ℚ) : Prop := ∃ k : ℤ, x * 10 ^ n = k

/-! ## Concrete values used to instantiate the theorems -/

def dMar10 : Date := ⟨2024, 3, 10, by decide, by decide, by decide, by decide⟩

def dMar9 : Date := ⟨2024, 3, 9, by decide, by decide, by decide, by decide⟩

def dJan15 : Date := ⟨2024, 1, 15, by decide, by decide, by decide, by decide⟩

def dFeb15 : Date := ⟨2024, 2, 15, by decide, by decide, by decide, by decide⟩

def dFeb20 : Date := ⟨2024, 2, 20, by decide, by decide, by decide, by decide⟩

def dJan31 : Date := ⟨2024, 1, 31, by decide, by decide, by decide, by decide⟩

def dFeb28 : Date := ⟨2024, 2, 28, by decide, by decide, by decide, by decide⟩

/-- An invoice with subtotal 1000 and a 150% discount (claim C2's instance). -/
def invC2 : Invoice :=
  { amount := 1000, tax_percent := 18, discount_percent := 150, status := .draft
    due_date := dMar10, lines := [], payments := [], advance_allocations := [] }

/-- A fully settled invoice (outstanding 0). -/
def invPaid : Invoice :=
  { amount := 100, tax_percent := 0, discount_percent := 0, status := .sent
    due_date := dMar10, lines := [], payments := [100], advance_allocations := [] }

/-- An over-settled invoice: payments exceed the total. -/
def invOver : Invoice :=
  { amount := 100, tax_percent := 0, discount_percent := 0, status := .sent
    due_date := dMar10, lines := [], payments := [150], advance_allocations := [] }

/-- An invoice that has a line, whose line total is zero, and a flat amount. -/
def invC8 : Invoice :=
  { amount := 500, tax_percent := 0, discount_percent := 0, status := .draft
    due_date := dMar10, lines := [⟨0, 100⟩], payments := [], advance_allocations := [] }

/-- A line with 2-decimal-place quantity and unit price whose product needs
4 decimal places. -/
def lineC9 : InvoiceLine := ⟨1 / 4, 1 / 4⟩

/-- The bill of claim C4: amount 1000, due yesterday, one payment of 400. -/
def billC4 : Bill :=
  { amount := 1000, due_date := some dMar9, status := .unpaid, payments := [400] }

/-- A bill with no due date and a partial payment. -/
def billC10 : Bill :=
  { amount := 1000, due_date := none, status := .unpaid, payments := [400] }

/-- The invoice reference of the concrete payment below. -/
def invRefW : InvoiceRef :=
  { display_invoice_number := "NVRT/1/1", project := none, lead_client_id := none }

/-- A concrete payment with an invoice. -/
def pW : Payment :=
  { id := 7, invoice := some invRefW, payment_date := dMar10, amount := 1100
    account_id := none, method := "", reference := "", received_by_id := none
    recorded_by_id := none }

/-- A concrete active monthly rule due since January. -/
def ruleW : RecurringTransactionRule :=
  { id := 1, name := "Rent", is_active := true, direction := .debit, category := .misc
    description := "", amount := 1200, account_id := none, related_project := none
    related_vendor_id := none, day_of_month := 15, next_run_date := dJan15 }

/-! ## Helper lemmas -/

theorem Date.le_refl (a : Date) : Date.Le a a := by unfold Date.Le; omega

theorem Date.le_of_lt {a b : Date} (h : Date.Lt a b) : Date.Le a b := by
  unfold Date.Lt at h; unfold Date.Le; omega

theorem Date.lt_trans_le {a b c : Date} (h1 : Date.Lt a b) (h2 : Date.Le b c) :
    Date.Lt a c := by
  unfold Date.Lt at h1 ⊢; unfold Date.Le at h2; omega

theorem Date.ne_of_lt {a b : Date} (h : Date.Lt a b) : a ≠ b := by
  intro he; cases he; unfold Date.Lt at h; omega

theorem Date.monthIdx_le_of_le {a b : Date} (h : Date.Le a b) :
    a.monthIdx ≤ b.monthIdx := by
  unfold Date.Le at h
  unfold Date.monthIdx
  have h1 := a.month_pos; have h2 := a.month_le
  have h3 := b.month_pos; have h4 := b.month_le
  omega

theorem Date.lt_of_monthIdx_lt {a b : Date} (h : a.monthIdx < b.monthIdx) :
    Date.Lt a b := by
  unfold Date.monthIdx at h
  unfold Date.Lt
  have h1 := a.month_pos; have h2 := a.month_le
  have h3 := b.month_pos; have h4 := b.month_le
  omega

theorem Date.not_le_of_monthIdx_lt {a b : Date} (h : b.monthIdx < a.monthIdx) :
    ¬ Date.Le a b := fun hle => absurd (Date.monthIdx_le_of_le hle) (by omega)

theorem monthIdx_nextRunCursor (dom : Nat) (d : Date) :
    (nextRunCursor dom d).monthIdx = d.monthIdx + 1 := by
  unfold nextRunCursor add_month Date.withClampedDay Date.firstOfMonth Date.monthIdx
  have := Int.ediv_add_emod d.month 12
  simp only
  omega

theorem lt_nextRunCursor (dom : Nat) (d : Date) : Date.Lt d (nextRunCursor dom d) :=
  Date.lt_of_monthIdx_lt (by rw [monthIdx_nextRunCursor]; omega)

/-- With at least `stepsFor today runDate` fuel, the loop exits only because
the cursor has moved past `today` — the fuel never runs out first, so
`expandSteps` computes the source's unbounded `while` loop. -/
theorem expandSteps_cursor_past_today (rule : RecurringTransactionRule) (actor : Option Nat)
    (today : Date) :
    ∀ (steps : Nat) (runDate : Date) (ledger : List Transaction) (count : Nat),
      stepsFor today runDate ≤ steps →
      ¬ Date.Le (expandSteps rule actor today steps runDate ledger count).2.1 today := by
  intro steps
  induction steps with
  | zero =>
    intro runDate ledger count hle
    unfold stepsFor at hle
    simp only [expandSteps]
    exact Date.not_le_of_monthIdx_lt (by omega)
  | succ n ih =>
    intro runDate ledger count hle
    unfold expandSteps
    by_cases h : Date.Le runDate today
    · simp only [h, if_true]
      apply ih
      have h1 := Date.monthIdx_le_of_le h
      unfold stepsFor at hle ⊢
      rw [monthIdx_nextRunCursor]
      omega
    · simp only [if_neg h]
      exact h

theorem countRuleTxns_append (l1 l2 : List Transaction) (rid : Nat) (d : Date) :
    countRuleTxns (l1 ++ l2) rid d = countRuleTxns l1 rid d + countRuleTxns l2 rid d := by
  unfold countRuleTxns
  exact List.countP_append _ _ _

theorem countRuleTxns_singleton (rule : RecurringTransactionRule) (actor : Option Nat)
    (rd : Date) (d : Date) :
    countRuleTxns [ruleTxnFor rule actor rd] rule.id d = if d = rd then 1 else 0 := by
  unfold countRuleTxns ruleTxnFor
  by_cases h : d = rd
  · subst h; simp [List.countP, List.countP.go]
  · have h2 : rd ≠ d := fun he => h he.symm
    simp [List.countP, List.countP.go, h, h2]

theorem hasRuleTxn_false_of_count_zero {l : List Transaction} {rid : Nat} {d : Date}
    (h : countRuleTxns l rid d = 0) : hasRuleTxn l rid d = false := by
  unfold countRuleTxns at h
  unfold hasRuleTxn
  rw [List.countP_eq_zero] at h
  rw [List.any_eq_false]
  intro t ht
  simpa using h t ht

theorem expandSteps_succ (rule : RecurringTransactionRule) (actor : Option Nat) (today : Date)
    (n : Nat) (runDate : Date) (ledger : List Transaction) (count : Nat) :
    expandSteps rule actor today (n + 1) runDate ledger count =
      if Date.Le runDate today then
        expandSteps rule actor today n (nextRunCursor rule.day_of_month runDate)
          (if hasRuleTxn ledger rule.id runDate then ledger
           else ledger ++ [ruleTxnFor rule actor runDate])
          (if hasRuleTxn ledger rule.id runDate then count else count + 1)
      else (ledger, runDate, count) := rfl

theorem elapsedDates_succ (dom : Nat) (today : Date) (n : Nat) (d : Date) :
    elapsedDates dom today (n + 1) d =
      (if Date.Le d today then d :: elapsedDates dom today n (nextRunCursor dom d) else []) := rfl

/-- Invariant of the period loop: starting from a ledger holding no row for
this rule at the cursor date or later, the loop leaves exactly one row per
visited period date, touches no other count, and adds one to
`created_count` per visited date. -/
theorem expandSteps_count (rule : RecurringTransactionRule) (actor : Option Nat) (today : Date) :
    ∀ (steps : Nat) (runDate : Date) (ledger : List Transaction) (count : Nat),
      (∀ d, Date.Le runDate d → countRuleTxns ledger rule.id d = 0) →
      (∀ d, countRuleTxns (expandSteps rule actor today steps runDate ledger count).1 rule.id d =
        (if d ∈ elapsedDates rule.day_of_month today steps runDate then 1
         else countRuleTxns ledger rule.id d)) ∧
      (expandSteps rule actor today steps runDate ledger count).2.2 =
        count + (elapsedDates rule.day_of_month today steps runDate).length := by
  intro steps
  induction steps with
  | zero =>
    intro runDate ledger count _
    simp [expandSteps, elapsedDates]
  | succ n ih =>
    intro runDate ledger count hclean
    by_cases h : Date.Le runDate today
    · have hzero : countRuleTxns ledger rule.id runDate = 0 :=
        hclean runDate (Date.le_refl runDate)
      have hno : hasRuleTxn ledger rule.id runDate = false :=
        hasRuleTxn_false_of_count_zero hzero
      have hclean' : ∀ d, Date.Le (nextRunCursor rule.day_of_month runDate) d →
          countRuleTxns (ledger ++ [ruleTxnFor rule actor runDate]) rule.id d = 0 := by
        intro d hd
        have hlt : Date.Lt runDate d :=
          Date.lt_trans_le (lt_nextRunCursor rule.day_of_month runDate) hd
        rw [countRuleTxns_append, countRuleTxns_singleton,
          if_neg (fun he => Date.ne_of_lt hlt he.symm),
          hclean d (Date.le_of_lt hlt)]
      have hrec := ih (nextRunCursor rule.day_of_month runDate)
        (ledger ++ [ruleTxnFor rule actor runDate]) (count + 1) hclean'
      have hstep : expandSteps rule actor today (n + 1) runDate ledger count =
          expandSteps rule actor today n (nextRunCursor rule.day_of_month runDate)
            (ledger ++ [ruleTxnFor rule actor runDate]) (count + 1) := by
        rw [expandSteps_succ, if_pos h, hno]; simp
      have helap : elapsedDates rule.day_of_month today (n + 1) runDate =
          runDate :: elapsedDates rule.day_of_month today n
            (nextRunCursor rule.day_of_month runDate) := by
        rw [elapsedDates_succ, if_pos h]
      constructor
      · intro d
        rw [hstep, hrec.1 d, helap]
        by_cases hmem : d ∈ elapsedDates rule.day_of_month today n
            (nextRunCursor rule.day_of_month runDate)
        · simp [hmem]
        · rw [if_neg hmem, countRuleTxns_append, countRuleTxns_singleton]
          by_cases hd : d = runDate
          · subst hd
            simp [List.mem_cons, hzero]
          · simp [List.mem_cons, hd, hmem]
      · rw [hstep, hrec.2, helap]
        simp [Nat.add_comm, Nat.add_assoc, Nat.add_left_comm]
    · rw [expandSteps_succ, elapsedDates_succ, if_neg h, if_neg h]
      simp

/-! ## Lemmas about the payment upsert -/

theorem applyPaymentDefaults_payment_id (inv : InvoiceRef) (p : Payment) (t : Transaction) :
    (applyPaymentDefaults inv p t).payment_id = t.payment_id := rfl

theorem applyPaymentDefaults_idem (inv : InvoiceRef) (p : Payment) (t : Transaction) :
    applyPaymentDefaults inv p (applyPaymentDefaults inv p t) = applyPaymentDefaults inv p t := rfl

theorem applyPaymentDefaults_newPaymentTxn (inv : InvoiceRef) (p : Payment) :
    applyPaymentDefaults inv p (newPaymentTxn inv p) = newPaymentTxn inv p := rfl

theorem newPaymentTxn_payment_id (inv : InvoiceRef) (p : Payment) :
    (newPaymentTxn inv p).payment_id = some p.id := rfl

theorem upsertPaymentTxn_eq (inv : InvoiceRef) (p : Payment) (ledger : List Transaction) :
    upsertPaymentTxn inv p ledger =
      if ledger.any (fun t => decide (t.payment_id = some p.id)) then
        ledger.map (updatePaymentRow inv p)
      else ledger ++ [newPaymentTxn inv p] := rfl

theorem updatePaymentRow_payment_id (inv : InvoiceRef) (p : Payment) (t : Transaction) :
    (updatePaymentRow inv p t).payment_id = t.payment_id := by
  unfold updatePaymentRow
  by_cases h : t.payment_id = some p.id <;> simp [h, applyPaymentDefaults_payment_id]

theorem updatePaymentRow_idem (inv : InvoiceRef) (p : Payment) (t : Transaction) :
    updatePaymentRow inv p (updatePaymentRow inv p t) = updatePaymentRow inv p t := by
  unfold updatePaymentRow
  by_cases h : t.payment_id = some p.id
  · rw [if_pos h, if_pos (by rw [applyPaymentDefaults_payment_id]; exact h),
      applyPaymentDefaults_idem]
  · rw [if_neg h, if_neg h]

theorem countPaymentTxns_map_update (inv : InvoiceRef) (p : Payment)
    (ledger : List Transaction) (pid : Nat) :
    countPaymentTxns (ledger.map (updatePaymentRow inv p)) pid = countPaymentTxns ledger pid := by
  unfold countPaymentTxns
  rw [List.countP_map]
  apply List.countP_congr
  intro t _
  simp [Function.comp, updatePaymentRow_payment_id]

/-- The upsert leaves exactly one row with this payment origin (the origin
key is one-to-one, so the ledger holds at most one such row beforehand). -/
theorem upsertPaymentTxn_count (inv : InvoiceRef) (p : Payment) (ledger : List Transaction)
    (hone : countPaymentTxns ledger p.id ≤ 1) :
    countPaymentTxns (upsertPaymentTxn inv p ledger) p.id = 1 := by
  rw [upsertPaymentTxn_eq]
  by_cases hany : ledger.any (fun t => decide (t.payment_id = some p.id)) = true
  · rw [if_pos hany, countPaymentTxns_map_update]
    have hpos : 0 < countPaymentTxns ledger p.id := by
      unfold countPaymentTxns
      rw [List.countP_pos_iff]
      obtain ⟨t, ht, hp⟩ := List.any_eq_true.mp hany
      exact ⟨t, ht, hp⟩
    omega
  · rw [if_neg hany]
    have hzero : countPaymentTxns ledger p.id = 0 := by
      unfold countPaymentTxns
      rw [List.countP_eq_zero]
      intro t ht
      by_contra hp
      exact hany (List.any_eq_true.mpr ⟨t, ht, by simpa using hp⟩)
    unfold countPaymentTxns at hzero ⊢
    rw [List.countP_append, hzero]
    simp [newPaymentTxn_payment_id]

/-- Saving the same payment again (unchanged) leaves the ledger untouched. -/
theorem upsertPaymentTxn_idem (inv : InvoiceRef) (p : Payment) (ledger : List Transaction) :
    upsertPaymentTxn inv p (upsertPaymentTxn inv p ledger) = upsertPaymentTxn inv p ledger := by
  by_cases hany : ledger.any (fun t => decide (t.payment_id = some p.id)) = true
  · have h1 : upsertPaymentTxn inv p ledger = ledger.map (updatePaymentRow inv p) := by
      rw [upsertPaymentTxn_eq, if_pos hany]
    obtain ⟨t, ht, hp⟩ := List.any_eq_true.mp hany
    have hany2 : (ledger.map (updatePaymentRow inv p)).any
        (fun t => decide (t.payment_id = some p.id)) = true := by
      refine List.any_eq_true.mpr ⟨updatePaymentRow inv p t, List.mem_map_of_mem _ ht, ?_⟩
      rw [updatePaymentRow_payment_id]
      exact hp
    rw [h1, upsertPaymentTxn_eq, if_pos hany2, List.map_map]
    apply List.map_congr_left
    intro s _
    exact updatePaymentRow_idem inv p s
  · have h1 : upsertPaymentTxn inv p ledger = ledger ++ [newPaymentTxn inv p] := by
      rw [upsertPaymentTxn_eq, if_neg hany]
    have hany2 : (ledger ++ [newPaymentTxn inv p]).any
        (fun t => decide (t.payment_id = some p.id)) = true := by
      refine List.any_eq_true.mpr ⟨newPaymentTxn inv p, by simp, by simp [newPaymentTxn_payment_id]⟩
    rw [h1, upsertPaymentTxn_eq, if_pos hany2, List.map_append]
    have hnone : ∀ t ∈ ledger, ¬ (t.payment_id = some p.id) := by
      intro t ht hp
      exact hany (List.any_eq_true.mpr ⟨t, ht, by simpa using hp⟩)
    have hl : ledger.map (updatePaymentRow inv p) = ledger := by
      conv_rhs => rw [← List.map_id ledger]
      apply List.map_congr_left
      intro s hs
      unfold updatePaymentRow
      rw [if_neg (hnone s hs)]
      rfl
    have hnew : updatePaymentRow inv p (newPaymentTxn inv p) = newPaymentTxn inv p := by
      unfold updatePaymentRow
      rw [if_pos (newPaymentTxn_payment_id inv p), applyPaymentDefaults_newPaymentTxn]
    rw [hl]
    simp [hnew]

/-- Every row of the upserted ledger whose origin is this payment carries the
payment's current fields: zero debit, credit equal to the amount, the
payment date. -/
theorem upsertPaymentTxn_fields (inv : InvoiceRef) (p : Payment) (ledger : List Transaction) :
    ∀ t ∈ upsertPaymentTxn inv p ledger, t.payment_id = some p.id →
      t.debit = 0 ∧ t.credit = p.amount ∧ t.date = p.payment_date := by
  rw [upsertPaymentTxn_eq]
  by_cases hany : ledger.any (fun t => decide (t.payment_id = some p.id)) = true
  · rw [if_pos hany]
    intro t ht hpid
    obtain ⟨s, hs, rfl⟩ := List.mem_map.mp ht
    unfold updatePaymentRow at hpid ⊢
    by_cases hsp : s.payment_id = some p.id
    · rw [if_pos hsp]
      exact ⟨rfl, rfl, rfl⟩
    · rw [if_neg hsp] at hpid
      exact absurd hpid hsp
  · rw [if_neg hany]
    intro t ht hpid
    rcases List.mem_append.mp ht with hl | hr
    · exact absurd (List.any_eq_true.mpr ⟨t, hl, by simpa using hpid⟩) hany
    · have he : t = newPaymentTxn inv p := by simpa using hr
      subst he
      exact ⟨rfl, rfl, rfl⟩

theorem hasDp_mul {m k : Nat} {x y : ℚ} (hx : hasDp m x) (hy : hasDp k y) :
    hasDp (m + k) (x * y) := by
  obtain ⟨a, ha⟩ := hx
  obtain ⟨b, hb⟩ := hy
  refine ⟨a * b, ?_⟩
  push_cast
  rw [pow_add]
  calc x * y * ((10 : ℚ) ^ m * 10 ^ k) = (x * 10 ^ m) * (y * 10 ^ k) := by ring
    _ = (a : ℚ) * b := by rw [ha, hb]

/-! ## Claim theorems -/

/-- C2: for every Invoice the valuation chain is
`discount_amount = clamp(subtotal × discount_percent/100, 0, subtotal)`,
`taxable_amount = subtotal − discount_amount`,
`total_with_tax = taxable_amount + taxable_amount × tax_percent/100`;
in particular an invoice with subtotal 1000 and discount_percent 150 has
discount_amount 1000, taxable_amount 0 and total_with_tax 0. -/
theorem invoice_valuation_chain :
    (∀ inv : Invoice,
      inv.discount_amount =
        min (max (inv.subtotal * inv.discount_percent / 100) 0) inv.subtotal ∧
      inv.taxable_amount = inv.subtotal - inv.discount_amount ∧
      inv.total_with_tax =
        inv.taxable_amount + inv.taxable_amount * inv.tax_percent / 100) ∧
    (invC2.subtotal = 1000 ∧ invC2.discount_amount = 1000 ∧
     invC2.taxable_amount = 0 ∧ invC2.total_with_tax = 0) := by
  constructor
  · intro inv
    refine ⟨rfl, ?_, rfl⟩
    unfold Invoice.taxable_amount
    have h : inv.discount_amount ≤ inv.subtotal := min_le_right _ _
    rw [max_eq_left (by linarith)]
  · have hsub : invC2.subtotal = 1000 := by
      norm_num [invC2, Invoice.subtotal, Invoice.linesTotal]
    have hdisc : invC2.discount_amount = 1000 := by
      rw [Invoice.discount_amount, hsub]
      norm_num [invC2]
    have htax : invC2.taxable_amount = 0 := by
      rw [Invoice.taxable_amount, hsub, hdisc]
      norm_num
    refine ⟨hsub, hdisc, htax, ?_⟩
    rw [Invoice.total_with_tax, htax]
    norm_num

/-- C3: `Invoice.refresh_status` decides the new status in exactly this
priority order: outstanding ≤ 0 ⇒ paid; else due_date < today ⇒ overdue;
else draft ⇒ sent; else unchanged. -/
theorem refresh_status_priority (inv : Invoice) (today : Date) :
    (inv.outstanding ≤ 0 → inv.refresh_status today = .paid) ∧
    (0 < inv.outstanding → Date.Lt inv.due_date today →
      inv.refresh_status today = .overdue) ∧
    (0 < inv.outstanding → ¬ Date.Lt inv.due_date today → inv.status = .draft →
      inv.refresh_status today = .sent) ∧
    (0 < inv.outstanding → ¬ Date.Lt inv.due_date today → inv.status ≠ .draft →
      inv.refresh_status today = inv.status) := by
  unfold Invoice.refresh_status
  refine ⟨fun h => by rw [if_pos h], fun h1 h2 => ?_, fun h1 h2 h3 => ?_, fun h1 h2 h3 => ?_⟩
  · rw [if_neg (not_le.mpr h1), if_pos h2]
  · rw [if_neg (not_le.mpr h1), if_neg h2, if_pos h3]
  · rw [if_neg (not_le.mpr h1), if_neg h2, if_neg h3]

/-- C3 witness: a fully settled invoice is reported paid. -/
theorem refresh_status_priority_witness :
    invPaid.refresh_status dMar10 = .paid :=
  (refresh_status_priority invPaid dMar10).1
    (by norm_num [invPaid, Invoice.outstanding, Invoice.total_with_tax,
      Invoice.taxable_amount, Invoice.discount_amount, Invoice.subtotal,
      Invoice.linesTotal, Invoice.amount_settled, Invoice.amount_received,
      Invoice.advance_applied])

/-- C7: `outstanding = max(total_with_tax − amount_settled, 0)` is never
negative, and over-settlement clamps it to zero. -/
theorem outstanding_nonneg (inv : Invoice) :
    inv.outstanding = max (inv.total_with_tax - inv.amount_settled) 0 ∧
    0 ≤ inv.outstanding ∧
    (inv.total_with_tax < inv.amount_settled → inv.outstanding = 0) := by
  refine ⟨rfl, le_max_right _ _, fun h => ?_⟩
  unfold Invoice.outstanding
  rw [max_eq_right (by linarith)]

/-- C7 witness: an invoice over-settled by 50 still has outstanding 0. -/
theorem outstanding_nonneg_witness :
    invOver.outstanding = 0 :=
  (outstanding_nonneg invOver).2.2
    (by norm_num [invOver, Invoice.total_with_tax, Invoice.taxable_amount,
      Invoice.discount_amount, Invoice.subtotal, Invoice.linesTotal,
      Invoice.amount_settled, Invoice.amount_received, Invoice.advance_applied])

/-- C8 counterexample: an invoice that HAS a line (quantity 0, price 100)
and flat amount 500 reports subtotal 500 — the flat amount — because the
zero line-sum is falsy, refuting "an invoice that has lines uses the lines'
sum, never the flat amount". -/
theorem subtotal_lines_counterexample :
    invC8.lines ≠ [] ∧ invC8.linesTotal = 0 ∧ invC8.subtotal = 500 ∧
    invC8.subtotal ≠ invC8.linesTotal := by
  have hlt : invC8.linesTotal = 0 := by
    norm_num [invC8, Invoice.linesTotal, InvoiceLine.line_total]
  have hsub : invC8.subtotal = 500 := by
    rw [Invoice.subtotal, if_pos hlt]
    rfl
  refine ⟨by simp [invC8], hlt, hsub, ?_⟩
  rw [hlt, hsub]
  norm_num

/-- C8 amended: subtotal is the sum of line totals when that sum is nonzero,
and falls back to the flat amount exactly when the sum is zero — which
includes every invoice without lines, but also invoices whose lines sum to
zero. -/
theorem subtotal_fallback_amended (inv : Invoice) :
    (inv.linesTotal ≠ 0 → inv.subtotal = inv.linesTotal) ∧
    (inv.linesTotal = 0 → inv.subtotal = inv.amount) ∧
    (inv.lines = [] → inv.subtotal = inv.amount) := by
  refine ⟨fun h => by rw [Invoice.subtotal, if_neg h],
          fun h => by rw [Invoice.subtotal, if_pos h],
          fun h => ?_⟩
  have hz : inv.linesTotal = 0 := by rw [Invoice.linesTotal, h]; rfl
  rw [Invoice.subtotal, if_pos hz]

/-- C8 amended witness: the zero-line-sum invoice falls back to its flat
amount. -/
theorem subtotal_fallback_amended_witness :
    invC8.subtotal = invC8.amount :=
  (subtotal_fallback_amended invC8).2.1
    (by norm_num [invC8, Invoice.linesTotal, InvoiceLine.line_total])

/-- C9 counterexample: a line with 2-decimal-place quantity 0.25 and unit
price 0.25 has line total 0.0625, which needs 4 decimal places — the
valuation does not round intermediates to 2 places. -/
theorem line_total_dp_counterexample :
    hasDp 2 lineC9.quantity ∧ hasDp 2 lineC9.unit_price ∧
    ¬ hasDp 2 lineC9.line_total := by
  refine ⟨⟨25, by norm_num [lineC9]⟩, ⟨25, by norm_num [lineC9]⟩, ?_⟩
  rintro ⟨k, hk⟩
  rw [lineC9, InvoiceLine.line_total] at hk
  norm_num at hk
  have h4 : (25 : ℚ) = 4 * k := by linarith
  have h5 : (25 : ℤ) = 4 * k := by exact_mod_cast h4
  omega

/-- C9 amended: the valuation works in exact decimal arithmetic with no
rounding step, so derived values can need more than 2 decimal places; a
line total of 2-decimal-place inputs needs at most 4. -/
theorem line_total_dp_amended (q p : ℚ) (hq : hasDp 2 q) (hp : hasDp 2 p) :
    hasDp 4 (InvoiceLine.line_total ⟨q, p⟩) :=
  hasDp_mul hq hp

/-- C9 amended witness: 0.25 × 0.25 has at most 4 decimal places. -/
theorem line_total_dp_amended_witness :
    hasDp 4 (InvoiceLine.line_total ⟨1 / 4, 1 / 4⟩) :=
  line_total_dp_amended (1 / 4) (1 / 4) ⟨25, by norm_num⟩ ⟨25, by norm_num⟩

/-- C4: `Bill.refresh_status` checks partial before overdue: outstanding ≤ 0
⇒ paid; else 0 < outstanding < amount ⇒ partial (even past due); else a
past due date ⇒ overdue; else unpaid. -/
theorem bill_status_priority (b : Bill) (today : Date) :
    (b.outstanding ≤ 0 → b.refresh_status today = .paid) ∧
    (0 < b.outstanding → b.outstanding < b.amount →
      b.refresh_status today = .partiallyPaid) ∧
    (0 < b.outstanding → b.amount ≤ b.outstanding →
      ∀ d, b.due_date = some d → Date.Lt d today → b.refresh_status today = .overdue) ∧
    (0 < b.outstanding → b.amount ≤ b.outstanding →
      (∀ d, b.due_date = some d → ¬ Date.Lt d today) →
      b.refresh_status today = .unpaid) := by
  unfold Bill.refresh_status
  refine ⟨fun h => by rw [if_pos h], fun h1 h2 => ?_, fun h1 h2 d hd hlt => ?_,
    fun h1 h2 hnd => ?_⟩
  · rw [if_neg (not_le.mpr h1), if_pos h2]
  · rw [if_neg (not_le.mpr h1), if_neg (not_lt.mpr h2), hd]
    show (if Date.Lt d today then BillStatus.overdue else BillStatus.unpaid) = _
    rw [if_pos hlt]
  · rw [if_neg (not_le.mpr h1), if_neg (not_lt.mpr h2)]
    cases hdd : b.due_date with
    | none => rfl
    | some d =>
      show (if Date.Lt d today then BillStatus.overdue else BillStatus.unpaid) = _
      rw [if_neg (hnd d hdd)]

/-- C4 witness: the bill with amount 1000, due yesterday and a 400 payment
has outstanding 600 and is reported partial, not overdue. -/
theorem bill_status_priority_witness :
    billC4.outstanding = 600 ∧ billC4.refresh_status dMar10 = .partiallyPaid := by
  have ho : billC4.outstanding = 600 := by
    norm_num [billC4, Bill.outstanding, Bill.amount_paid]
  refine ⟨ho, (bill_status_priority billC4 dMar10).2.1 (by rw [ho]; norm_num)
    (by rw [ho]; norm_num [billC4])⟩

/-- C10: a Bill without a due date is never reported overdue: it is paid
when settled, partial when partly paid, and unpaid otherwise. -/
theorem bill_no_due_date_never_overdue (b : Bill) (today : Date)
    (hdue : b.due_date = none) :
    b.refresh_status today ≠ .overdue ∧
    (b.outstanding ≤ 0 → b.refresh_status today = .paid) ∧
    (0 < b.outstanding → b.outstanding < b.amount →
      b.refresh_status today = .partiallyPaid) ∧
    (0 < b.outstanding → b.amount ≤ b.outstanding →
      b.refresh_status today = .unpaid) := by
  unfold Bill.refresh_status
  rw [hdue]
  refine ⟨?_, fun h => by rw [if_pos h], fun h1 h2 => ?_, fun h1 h2 => ?_⟩
  · by_cases h1 : b.outstanding ≤ 0
    · rw [if_pos h1]; decide
    · rw [if_neg h1]
      by_cases h2 : b.outstanding < b.amount
      · rw [if_pos h2]; decide
      · rw [if_neg h2]
        show ¬ BillStatus.unpaid = BillStatus.overdue
        decide
  · rw [if_neg (not_le.mpr h1), if_pos h2]
  · rw [if_neg (not_le.mpr h1), if_neg (not_lt.mpr h2)]

/-- C10 witness: a partly paid bill with no due date is partial, never
overdue. -/
theorem bill_no_due_date_never_overdue_witness :
    billC10.refresh_status dMar10 ≠ .overdue ∧
    billC10.refresh_status dMar10 = .partiallyPaid := by
  have h := bill_no_due_date_never_overdue billC10 dMar10 rfl
  have ho : billC10.outstanding = 600 := by
    norm_num [billC10, Bill.outstanding, Bill.amount_paid]
  exact ⟨h.1, h.2.2.1 (by rw [ho]; norm_num) (by rw [ho]; norm_num [billC10])⟩

/-- C1: saving a Payment that has an invoice upserts exactly one Transaction
with that payment origin; re-saving it with unchanged fields adds no row
and leaves the ledger unchanged, the row holding debit 0, credit = amount
and date = payment_date.  (The payment origin key is a one-to-one field, so
the ledger holds at most one matching row beforehand.) -/
theorem payment_sync_upsert (p : Payment) (inv : InvoiceRef) (ledger : List Transaction)
    (hinv : p.invoice = some inv)
    (hone : countPaymentTxns ledger p.id ≤ 1) :
    countPaymentTxns (sync_cashbook_entry_on_payment p ledger) p.id = 1 ∧
    sync_cashbook_entry_on_payment p (sync_cashbook_entry_on_payment p ledger) =
      sync_cashbook_entry_on_payment p ledger ∧
    ∀ t ∈ sync_cashbook_entry_on_payment p ledger, t.payment_id = some p.id →
      t.debit = 0 ∧ t.credit = p.amount ∧ t.date = p.payment_date := by
  have hs : ∀ l : List Transaction,
      sync_cashbook_entry_on_payment p l = upsertPaymentTxn inv p l := by
    intro l
    unfold sync_cashbook_entry_on_payment
    rw [hinv]
  rw [hs, hs]
  exact ⟨upsertPaymentTxn_count inv p ledger hone, upsertPaymentTxn_idem inv p ledger,
    upsertPaymentTxn_fields inv p ledger⟩

/-- C1 witness: syncing a concrete payment into an empty ledger leaves
exactly one row with its origin, and syncing again changes nothing. -/
theorem payment_sync_upsert_witness :
    countPaymentTxns (sync_cashbook_entry_on_payment pW []) pW.id = 1 ∧
    sync_cashbook_entry_on_payment pW (sync_cashbook_entry_on_payment pW []) =
      sync_cashbook_entry_on_payment pW [] := by
  have h := payment_sync_upsert pW invRefW [] rfl (by decide)
  exact ⟨h.1, h.2.1⟩

/-- C5: one expansion step moves the cursor to the following calendar month
with the day clamped to `min(day_of_month, 28)`. -/
theorem recurring_cursor_advance (dom : Nat) (d : Date) (hdom : 1 ≤ dom) :
    (nextRunCursor dom d).monthIdx = d.monthIdx + 1 ∧
    (nextRunCursor dom d).day = min (dom : Int) 28 := by
  refine ⟨monthIdx_nextRunCursor dom d, ?_⟩
  show clampedDay dom = min (dom : Int) 28
  unfold clampedDay
  rw [if_neg (by omega)]

/-- C5 witness: a rule with day_of_month 31 and cursor 2024-01-31 advances to
2024-02-28. -/
theorem recurring_cursor_advance_witness :
    ((nextRunCursor 31 dJan31).monthIdx = dJan31.monthIdx + 1 ∧
     (nextRunCursor 31 dJan31).day = min (31 : Int) 28) ∧
    nextRunCursor 31 dJan31 = dFeb28 :=
  ⟨recurring_cursor_advance 31 dJan31 (by decide), by decide⟩

/-- C6: for an active rule whose cursor is due, one run creates exactly one
Transaction per elapsed period date (keyed by rule and date) and counts
them; a second run with the advanced rule over the resulting ledger is a
no-op contributing 0 to created_count. -/
theorem recurring_generation_idempotent (rule : RecurringTransactionRule)
    (actor : Option Nat) (today : Date) (ledger : List Transaction)
    (hactive : rule.is_active = true)
    (hdue : Date.Le rule.next_run_date today)
    (hclean : ∀ d, countRuleTxns ledger rule.id d = 0) :
    (∀ d, countRuleTxns (generate_recurring_transactions rule actor today ledger).1 rule.id d =
      if d ∈ elapsedDates rule.day_of_month today (stepsFor today rule.next_run_date)
          rule.next_run_date then 1 else 0) ∧
    (generate_recurring_transactions rule actor today ledger).2.2 =
      (elapsedDates rule.day_of_month today (stepsFor today rule.next_run_date)
        rule.next_run_date).length ∧
    generate_recurring_transactions
        (generate_recurring_transactions rule actor today ledger).2.1 actor today
        (generate_recurring_transactions rule actor today ledger).1 =
      ((generate_recurring_transactions rule actor today ledger).1,
       (generate_recurring_transactions rule actor today ledger).2.1, 0) := by
  have hgen : generate_recurring_transactions rule actor today ledger =
      ((runRule rule actor today ledger).1,
       { rule with next_run_date := (runRule rule actor today ledger).2.1 },
       (runRule rule actor today ledger).2.2) := by
    unfold generate_recurring_transactions
    rw [if_pos ⟨hactive, hdue⟩]
  have hcount := expandSteps_count rule actor today (stepsFor today rule.next_run_date)
    rule.next_run_date ledger 0 (fun d _ => hclean d)
  have hpast := expandSteps_cursor_past_today rule actor today
    (stepsFor today rule.next_run_date) rule.next_run_date ledger 0 (le_refl _)
  refine ⟨?_, ?_, ?_⟩
  · intro d
    rw [hgen]
    have h1 := hcount.1 d
    unfold runRule at h1 ⊢
    rw [h1, hclean d]
  · rw [hgen]
    have h2 := hcount.2
    unfold runRule at h2 ⊢
    rw [h2, Nat.zero_add]
  · rw [hgen]
    unfold generate_recurring_transactions
    rw [if_neg ?_]
    intro hg
    exact hpast hg.2

/-- C6 witness: the rule due since 2024-01-15 run on 2024-02-20 creates one
transaction each for Jan 15 and Feb 15 (created_count 2), and running it
again creates nothing. -/
theorem recurring_generation_idempotent_witness :
    countRuleTxns (generate_recurring_transactions ruleW none dFeb20 []).1 ruleW.id dJan15 = 1 ∧
    countRuleTxns (generate_recurring_transactions ruleW none dFeb20 []).1 ruleW.id dFeb15 = 1 ∧
    (generate_recurring_transactions ruleW none dFeb20 []).2.2 = 2 ∧
    generate_recurring_transactions
        (generate_recurring_transactions ruleW none dFeb20 []).2.1 none dFeb20
        (generate_recurring_transactions ruleW none dFeb20 []).1 =
      ((generate_recurring_transactions ruleW none dFeb20 []).1,
       (generate_recurring_transactions ruleW none dFeb20 []).2.1, 0) := by
  have h := recurring_generation_idempotent ruleW none dFeb20 [] rfl (by decide)
    (fun d => rfl)
  refine ⟨?_, ?_, ?_, h.2.2⟩
  · rw [h.1 dJan15]; decide
  · rw [h.1 dFeb15]; decide
  · rw [h.2.1]; decide

end Novart
